import Mathlib

/-!
Verification development for the ParkAPI2-sources normalization pipeline.

The development shallowly embeds two source adapters:
* `Neckarsulm` — the CSV converter `NeckarsulmConverter.handle_csv`
  (src/v3/neckarsulm.py), together with the validataclass row schema
  `NeckarsulmRowInput`.
* `Bahn` — the Deutsche Bahn scraper `BahnParking` (src/new/bahn.py):
  `get_lot_data` and `get_lot_infos` with all their helper functions.

Python strings are Lean `String`s; Python dicts built from CSV rows are
association lists `List (String × String)` with last-write-wins insertion;
Python exceptions (`KeyError`, `IndexError`, `TypeError`, validation
errors escaping a function) are `Except String _`; JSON `.get` access is
`Option`.
-/

namespace ParkAPI

/-! ## Association-list dictionaries (Python `dict` with string keys) -/

/-- Lookup of a key in an association list, first binding wins.
Mirrors Python `d.get(k)` on the dictionaries built below, whose
insertion discipline keeps at most one binding per key. -/
def lookupD {α : Type} (d : List (String × α)) (k : String) : Option α :=
  match d with
  | [] => none
  | (k', v) :: rest => if k = k' then some v else lookupD rest k

/-- Insertion `d[k] = v` into an association list: overwrite the existing
binding of `k` if there is one, append otherwise (Python dict update). -/
def dset (d : List (String × String)) (k : String) (v : String) :
    List (String × String) :=
  match d with
  | [] => [(k, v)]
  | (k', v') :: rest =>
      if k = k' then (k', v) :: rest else (k', v') :: dset rest k v

/-- Python `dict(zip(keys, vals))`: pair keys with values, truncating at
the shorter list; later duplicate keys overwrite earlier ones. -/
def zipDict (keys vals : List String) : List (String × String) :=
  (keys.zip vals).foldl (fun d kv => dset d kv.1 kv.2) []

/-! ## Character/string utilities -/

/-- Python `bool(re.search(r'\d', s))`: the string contains a digit. -/
def containsDigit (s : String) : Bool :=
  s.data.any Char.isDigit

/-- Python `s.replace(',', '.')` for the single-character arguments used
in the converter: map every comma to a dot. -/
def commaToDot (s : String) : String :=
  ⟨s.data.map (fun c => if c = ',' then '.' else c)⟩

/-- Occurrence test for a (non-empty) pattern inside a character list,
mirroring Python `pat in s`. -/
def containsSubL (pat : List Char) : List Char → Bool
  | [] => pat.isEmpty
  | c :: rest => pat.isPrefixOf (c :: rest) || containsSubL pat rest

/-- String form of `containsSubL`: Python `pat in s`. -/
def containsSub (pat s : String) : Bool :=
  containsSubL pat.data s.data

/-- Characters before the first occurrence of `pat` (the whole list when
`pat` does not occur): Python `s.split(pat)[0]` for non-empty `pat`. -/
def takeBeforeL (pat : List Char) : List Char → List Char
  | [] => []
  | c :: rest =>
      if pat.isPrefixOf (c :: rest) then []
      else c :: takeBeforeL pat rest

/-- Replace every occurrence of `pat` (non-empty) by `rep`, scanning left
to right without rescanning the replacement: Python `s.replace(pat, rep)`.
`fuel` bounds the recursion; callers pass the length of the list. -/
def replaceAllL (pat rep : List Char) : Nat → List Char → List Char
  | _, [] => []
  | 0, l => l
  | fuel + 1, c :: rest =>
      if pat.isPrefixOf (c :: rest) ∧ pat ≠ [] then
        rep ++ replaceAllL pat rep fuel (List.drop (pat.length - 1) rest)
      else
        c :: replaceAllL pat rep fuel rest

/-- String form of `replaceAllL`: Python `s.replace(pat, rep)`. -/
def replaceAll (s pat rep : String) : String :=
  ⟨replaceAllL pat.data rep.data s.data.length s.data⟩

/-- String form of `takeBeforeL`: Python `s.split(pat)[0]`. -/
def takeBefore (s pat : String) : String :=
  ⟨takeBeforeL pat.data s.data⟩

/-- Parse a non-empty all-digit character list as a natural number. -/
def digitsToNat (l : List Char) : Nat :=
  l.foldl (fun acc c => acc * 10 + (c.toNat - '0'.toNat)) 0

/-- Integer parsing of a string: optional sign followed by at least one
digit, nothing else. Modelled from the spec: the validataclass
`IntegerValidator(allow_strings=True)` semantics (the library is a
dependency, not part of the repository sources). -/
def parseIntStr (s : String) : Option Int :=
  match s.data with
  | [] => none
  | '-' :: rest =>
      if rest ≠ [] ∧ rest.all Char.isDigit then some (-(digitsToNat rest : Int))
      else none
  | '+' :: rest =>
      if rest ≠ [] ∧ rest.all Char.isDigit then some (digitsToNat rest : Int)
      else none
  | l =>
      if l.all Char.isDigit then some (digitsToNat l : Int) else none

/-- A parsed decimal value: signed mantissa together with the number of
fractional digits, representing `mantissa / 10 ^ scale`. -/
structure DecimalVal where
  mantissa : Int
  scale : Nat
deriving DecidableEq, Repr

/-- Decimal parsing of a string: optional sign, digits with at most one
dot, at least one digit in total. Modelled from the spec: the
validataclass `DecimalValidator` input format (the library is a
dependency, not part of the repository sources). -/
def parseDecimalStr (s : String) : Option DecimalVal :=
  let core : List Char → Option DecimalVal := fun l =>
    match l.splitOn '.' with
    | [intPart] =>
        if intPart ≠ [] ∧ intPart.all Char.isDigit then
          some ⟨(digitsToNat intPart : Int), 0⟩
        else none
    | [intPart, fracPart] =>
        if (intPart ≠ [] ∨ fracPart ≠ []) ∧ intPart.all Char.isDigit ∧
            fracPart.all Char.isDigit then
          some ⟨(digitsToNat (intPart ++ fracPart) : Int), fracPart.length⟩
        else none
    | _ => none
  match s.data with
  | '-' :: rest => (core rest).map (fun d => ⟨-d.mantissa, d.scale⟩)
  | '+' :: rest => core rest
  | l => core l

/-- The rational value `min ≤ mantissa / 10 ^ scale` test, phrased over
integers so that it stays decidable and executable. -/
def decimalGe (d : DecimalVal) (min : Int) : Bool :=
  min * (10 : Int) ^ d.scale ≤ d.mantissa

/-- The rational value `mantissa / 10 ^ scale ≤ max` test, phrased over
integers so that it stays decidable and executable. -/
def decimalLe (d : DecimalVal) (max : Int) : Bool :=
  d.mantissa ≤ max * (10 : Int) ^ d.scale

/-! ## Neckarsulm CSV converter (src/v3/neckarsulm.py) -/

namespace Neckarsulm

/-- The fixed canonical header list `NeckarsulmConverter.header_row`. -/
def headerRow : List String :=
  ["uid", "name", "type", "lat", "lon", "street", "postcode", "city",
   "max_stay", "capacity", "capacity_carsharing", "capacity_charging",
   "capacity_woman", "capacity_disabled", "has_fee", "opening_hours",
   "opening_hours_monday", "opening_hours_tuesday", "opening_hours_wednesday",
   "opening_hours_thursday", "opening_hours_friday", "opening_hours_saturday",
   "opening_hours_sunday", "opening_hours_public_holiday", "opening_days"]

/-- The translation table `NeckarsulmConverter.header_mapping` from the
provider's German header names to canonical field names, in declaration
order. -/
def headerMapping : List (String × String) :=
  [("id", "uid"), ("name", "name"), ("kategorie", "type"),
   ("y-koord", "lat"), ("x-koord", "lon"), ("strasse", "street"),
   ("plz", "postcode"), ("stadt", "city"), ("maxparken_1", "max_stay"),
   ("anz_plaetze", "capacity"), ("anzcarsharing", "capacity_carsharing"),
   ("anzeladestation", "capacity_charging"), ("anzfrauenpark", "capacity_woman"),
   ("anzbehinderte", "capacity_disabled"), ("gebuehren", "has_fee"),
   ("open_time", "opening_hours"), ("open_mo", "opening_hours_monday"),
   ("open_di", "opening_hours_tuesday"), ("open_mi", "opening_hours_wednesday"),
   ("open_do", "opening_hours_thursday"), ("open_fr", "opening_hours_friday"),
   ("open_sa", "opening_hours_saturday"), ("open_so", "opening_hours_sunday"),
   ("open_feier", "opening_hours_public_holiday"), ("open_day", "opening_days")]

/-- The provider type-code table `NeckarsulmConverter.type_mapping`. -/
def typeMapping : List (String × String) :=
  [("Parkplatz", "OFF_STREET_PARKING_GROUND"),
   ("Wanderparkplatz", "OFF_STREET_PARKING_GROUND"),
   ("Parkhaus", "CAR_PARK"),
   ("Tiefgarage", "UNDERGROUND"),
   ("p+r", "PARK_AND_RIDE")]

/-- The validated row `NeckarsulmRowInput`: integers for the
`IntegerValidator` fields, parsed decimals for `lat`/`lon`, strings for
the `StringValidator` fields. -/
structure RowInput where
  uid : Int
  name : String
  type : String
  lat : DecimalVal
  lon : DecimalVal
  street : String
  postcode : String
  city : String
  max_stay : String
  capacity : Int
  capacity_carsharing : Int
  capacity_charging : Int
  capacity_woman : Int
  capacity_disabled : Int
  has_fee : String
  opening_hours : String
deriving DecidableEq, Repr

/-- The per-field constraint kinds of the `NeckarsulmRowInput` schema:
`IntegerValidator(allow_strings=True)`, `StringValidator(max_length=255)`,
and `DecimalValidator(min_value, max_value)`. -/
inductive FieldKind where
  | intF : FieldKind
  | strF : FieldKind
  | decF : Int → Int → FieldKind
deriving DecidableEq, Repr

/-- The declared schema of `NeckarsulmRowInput`, field by field in
declaration order. -/
def fieldSpecs : List (String × FieldKind) :=
  [("uid", .intF), ("name", .strF), ("type", .strF),
   ("lat", .decF 40 60), ("lon", .decF 7 10),
   ("street", .strF), ("postcode", .strF), ("city", .strF),
   ("max_stay", .strF), ("capacity", .intF),
   ("capacity_carsharing", .intF), ("capacity_charging", .intF),
   ("capacity_woman", .intF), ("capacity_disabled", .intF),
   ("has_fee", .strF), ("opening_hours", .strF),
   ("opening_hours_monday", .strF), ("opening_hours_tuesday", .strF),
   ("opening_hours_wednesday", .strF), ("opening_hours_thursday", .strF),
   ("opening_hours_friday", .strF), ("opening_hours_saturday", .strF),
   ("opening_hours_sunday", .strF), ("opening_hours_public_holiday", .strF),
   ("opening_days", .strF)]

/-- Constraint check of one declared field against the raw dictionary: a
missing required field fails, otherwise the value must satisfy its
validator. Modelled from the spec: the validataclass `DataclassValidator`
per-field semantics (the library is a dependency, not part of the
repository sources). -/
def checkField (d : List (String × String)) (spec : String × FieldKind) : Bool :=
  match lookupD d spec.1 with
  | none => false
  | some v =>
      match spec.2 with
      | .intF => (parseIntStr v).isSome
      | .strF => v.length ≤ 255
      | .decF mn mx =>
          match parseDecimalStr v with
          | some dv => decimalGe dv mn && decimalLe dv mx
          | none => false

/-- Names of all fields of the schema that fail validation on the given
dictionary: the validator reports every failing field, not just the
first one. -/
def failedFields (d : List (String × String)) : List String :=
  (fieldSpecs.filter (fun fs => !(checkField d fs))).map (·.1)

/-- Extraction of a validated integer field (defaulting, never reached
after a successful full check). -/
def getIntF (d : List (String × String)) (k : String) : Int :=
  ((lookupD d k).bind parseIntStr).getD 0

/-- Extraction of a validated string field. -/
def getStrF (d : List (String × String)) (k : String) : String :=
  (lookupD d k).getD ""

/-- Extraction of a validated decimal field. -/
def getDecF (d : List (String × String)) (k : String) : DecimalVal :=
  ((lookupD d k).bind parseDecimalStr).getD ⟨0, 0⟩

/-- The row validator `neckarsulm_row_validator.validate`: either a fully
typed `RowInput` or a validation error listing every failing field.
Modelled from the spec: the validataclass `DataclassValidator` semantics
(the library is a dependency, not part of the repository sources). -/
def validateRow (d : List (String × String)) : Except String RowInput :=
  match failedFields d with
  | [] =>
      .ok
        { uid := getIntF d "uid", name := getStrF d "name",
          type := getStrF d "type", lat := getDecF d "lat",
          lon := getDecF d "lon", street := getStrF d "street",
          postcode := getStrF d "postcode", city := getStrF d "city",
          max_stay := getStrF d "max_stay", capacity := getIntF d "capacity",
          capacity_carsharing := getIntF d "capacity_carsharing",
          capacity_charging := getIntF d "capacity_charging",
          capacity_woman := getIntF d "capacity_woman",
          capacity_disabled := getIntF d "capacity_disabled",
          has_fee := getStrF d "has_fee",
          opening_hours := getStrF d "opening_hours" }
  | fs => .error (String.intercalate ", " fs)

/-- Modelled from the spec: `CsvConverter.get_mapping_by_header`
(common/base_converter.py, not under src/) looks up each actual header
string in the translation table to find its canonical name, building the
position-to-canonical-name correspondence dynamically; untranslatable
positions carry no canonical name. -/
def getMappingByHeader (table : List (String × String)) (hdr : List String) :
    List (Option String) :=
  hdr.map (lookupD table)

/-- Inner loop of the header-driven dictionary build: for every position
of the mapping, read `row[position]` (IndexError when out of range) and
bind the canonical name at that position, if any. -/
def buildHeaderDictGo (row : List String) :
    List (Option String) → Nat → List (String × String) →
    Except String (List (String × String))
  | [], _, d => .ok d
  | f :: rest, pos, d =>
      match row.get? pos with
      | none => .error "IndexError: row index out of range"
      | some v =>
          buildHeaderDictGo row rest (pos + 1)
            (match f with
             | some k => dset d k v
             | none => d)

/-- The second-approach dictionary of `handle_csv` (lines 145-147): for
`position, field in enumerate(mapping)`, set `input_data[field] =
row[position]`. -/
def buildHeaderDict (mapping : List (Option String)) (row : List String) :
    Except String (List (String × String)) :=
  buildHeaderDictGo row mapping 0 []

/-- Comma-to-dot normalization of one coordinate value (lines 141-142):
replace commas by dots when the raw string contains a digit, otherwise
pass the string through unchanged. -/
def normalizeCommaDecimal (s : String) : String :=
  if containsDigit s then commaToDot s else s

/-- Normalization step `input_dict[k] = normalize(input_dict[k])`: a
missing key is a `KeyError` that escapes `handle_csv`. -/
def normalizeCoordAt (d : List (String × String)) (k : String) :
    Except String (List (String × String)) :=
  match lookupD d k with
  | none => .error ("KeyError: " ++ k)
  | some v => .ok (dset d k (normalizeCommaDecimal v))

/-- One static parking site record `StaticParkingSiteInput` as
constructed by `handle_csv` (lines 160-176). -/
structure StaticParkingSiteInput where
  uid : String
  name : String
  type : Option String
  lat : DecimalVal
  lon : DecimalVal
  address : String
  max_stay : String
  capacity : Int
  capacity_carsharing : String
  capacity_charging : Int
  capacity_woman : Int
  capacity_disabled : Int
  has_fee : String
  opening_hours : String
  static_data_updated_at : String
deriving DecidableEq, Repr

/-- One `ImportParkingSiteException` error entry: the identifying key
recovered from the row (if any) and a human-readable message. -/
structure ImportErr where
  uid : Option String
  message : String
deriving DecidableEq, Repr

/-- The batch output `ImportSourceResult`: the success sequence and the
error sequence. -/
structure ImportSourceResult where
  static_parking_site_inputs : List StaticParkingSiteInput
  static_parking_site_errors : List ImportErr
deriving DecidableEq, Repr

/-- Construction of the `StaticParkingSiteInput` from a validated row
(lines 160-176): `str(...)` is `toString`, the address is the f-string
`street, postcode city`, the type is `type_mapping.get(...)`. -/
def mkSite (now : String) (rec : RowInput) : StaticParkingSiteInput :=
  { uid := toString rec.uid
    name := rec.name
    type := lookupD typeMapping rec.type
    lat := rec.lat
    lon := rec.lon
    address := rec.street ++ ", " ++ rec.postcode ++ " " ++ rec.city
    max_stay := rec.max_stay
    capacity := rec.capacity
    capacity_carsharing := toString rec.capacity_carsharing
    capacity_charging := rec.capacity_charging
    capacity_woman := rec.capacity_woman
    capacity_disabled := rec.capacity_disabled
    has_fee := rec.has_fee
    opening_hours := rec.opening_hours
    static_data_updated_at := now }

/-- The first-approach dictionary of one data row with its coordinates
normalized in place (lines 138-142): `dict(zip(header_row, row))`, then
the comma-to-dot rewrite of `lat` and `lon`. -/
def prepRow (row : List String) : Except String (List (String × String)) := do
  let d0 := zipDict headerRow row
  let d1 ← normalizeCoordAt d0 "lat"
  normalizeCoordAt d1 "lon"

/-- Processing of one data row of `handle_csv` (lines 136-177): build the
positional dictionary, normalize `lat` and `lon` in place, build (and
discard, as the source does) the header-driven dictionary, then validate;
a validation failure becomes an error entry whose uid is
`input_dict.get('id')`. -/
def processRow (now : String) (mapping : List (Option String))
    (row : List String) :
    Except String (StaticParkingSiteInput ⊕ ImportErr) := do
  let d2 ← prepRow row
  let _ ← buildHeaderDict mapping row
  match validateRow d2 with
  | .error e =>
      .ok (.inr { uid := lookupD d2 "id", message := "validation error: " ++ e })
  | .ok rec => .ok (.inl (mkSite now rec))

/-- Loop of `handle_csv` over the data rows, accumulating the success and
error sequences in input order; an escaped exception on any row aborts
the whole batch. -/
def handleRows (now : String) (mapping : List (Option String)) :
    List (List String) →
    Except String (List StaticParkingSiteInput × List ImportErr)
  | [] => .ok ([], [])
  | row :: rest => do
      let out ← processRow now mapping row
      let (ss, es) ← handleRows now mapping rest
      match out with
      | .inl s => .ok (s :: ss, es)
      | .inr e => .ok (ss, e :: es)

/-- The converter entry point `NeckarsulmConverter.handle_csv`: the first
row is the header (IndexError on an empty table), the remaining rows are
processed one by one. `now` stands for `datetime.now(tz=timezone.utc)`. -/
def handleCsv (now : String) (data : List (List String)) :
    Except String ImportSourceResult :=
  match data with
  | [] => .error "IndexError: list index out of range"
  | header :: rows => do
      let mapping := getMappingByHeader headerMapping header
      let (ss, es) ← handleRows now mapping rows
      .ok { static_parking_site_inputs := ss, static_parking_site_errors := es }

end Neckarsulm

/-! ## Deutsche Bahn scraper (src/new/bahn.py) -/

namespace Bahn

/-- The coarse vacancy bucket table
`BahnParking.ALLOCATION_TEXT_TO_NUM_FREE_MAPPING`. -/
def allocationTextToNumFreeMapping : List (String × Int) :=
  [("bis 10", 5), (">10", 11), (">30", 31), (">50", 51)]

/-- The fee duration vocabulary `BahnParking.FEE_DURATION_MAPPPING`. -/
def feeDurationMapping : List (String × String) :=
  [("20min", "20 Minuten"), ("30min", "30 Minuten"), ("1hour", "1 Stunde"),
   ("1day", "1 Tag"), ("1dayDiscount", "1 Tag rabattiert"),
   ("1week", "1 Woche"), ("1weekDiscount", "1 Woche rabattiert"),
   ("1monthVendingMachine", "1 Monat (am Automaten)"),
   ("1monthLongTerm", "1 Monat Dauerparken (mind. 3 Monate)"),
   ("1monthReservation", "1 Monat Dauerparken (fester Stellplatz)")]

/-- The machine source URL of `BahnParking.POOL`. -/
def poolSourceUrl : String :=
  "https://apis.deutschebahn.com/db-api-marketplace/apis/parking-information/db-bahnpark/v2/parking-facilities"

/-- The `LotData.Status` states used by the scraper; `opened` renders
the source's `LotData.Status.open` (`open` is a Lean keyword). -/
inductive Status where
  | nodata : Status
  | opened : Status
  | error : Status
deriving DecidableEq, Repr

/-- One timestamped occupancy observation `LotData`. -/
structure LotData where
  id : String
  timestamp : String
  lot_timestamp : Option String
  status : Status
  num_free : Option Int
  capacity : Option Int
deriving DecidableEq, Repr

/-- One occupancy node `prognosis["_embedded"][0]["occupancy"]`: every
field is read with `.get`, so each is optional. -/
structure Alloc where
  timeSegment : Option String
  validData : Option Bool
  capacity : Option Int
  vacancyText : Option String
deriving DecidableEq, Repr

/-- One entry of the `_embedded` array of a prognosis response; its
`occupancy` key is accessed unconditionally. -/
structure PrognosisEntry where
  occupancy : Alloc
deriving DecidableEq, Repr

/-- A prognosis response: its `_embedded` key is accessed
unconditionally and holds an array. -/
structure Prognosis where
  embedded : List PrognosisEntry
deriving DecidableEq, Repr

/-- The facility attributes `get_lot_data` reads from the cached
`LotInfo` objects returned by `get_lot_infos_from_geojson`. -/
structure FacilityLite where
  id : String
  has_live_capacity : Bool
  address : String
  source_url : String
deriving DecidableEq, Repr

/-- Extraction `prognosis["_embedded"][0]["occupancy"]` (line 95): an
empty `_embedded` array raises an IndexError that escapes
`get_lot_data`. -/
def getAlloc (p : Prognosis) : Except String Alloc :=
  match p.embedded.get? 0 with
  | none => .error "IndexError: _embedded is empty"
  | some entry => .ok entry.occupancy

/-- Derivation of the lot timestamp (lines 98-100): a truthy
`timeSegment` is converted to UTC, an empty string passes through, a
missing one stays `None`. `toUtc` stands for `self.to_utc_datetime`
(util package, not under src/), kept abstract. -/
def lotTs (toUtc : String → String) (o : Option String) : Option String :=
  match o with
  | none => none
  | some s => if s = "" then some s else some (toUtc s)

/-- Processing of one occupancy node into a `LotData` (lines 97-127):
derive the lot timestamp, derive the status from `validData`, then
either mark a missing/empty vacancy text as `error` (when the status was
`open`) or look the text up in the bucket table — an unknown non-empty
text raises a KeyError that escapes `get_lot_data`. -/
def procAlloc (now : String) (toUtc : String → String) (id : String)
    (alloc : Alloc) : Except String LotData :=
  let lotTimestamp : Option String := lotTs toUtc alloc.timeSegment
  let status0 : Status := if alloc.validData = some true then .opened else .nodata
  match alloc.vacancyText with
  | none =>
      .ok { id := id, timestamp := now, lot_timestamp := lotTimestamp,
            status := if status0 = .opened then .error else status0,
            num_free := none, capacity := alloc.capacity }
  | some s =>
      if s = "" then
        .ok { id := id, timestamp := now, lot_timestamp := lotTimestamp,
              status := if status0 = .opened then .error else status0,
              num_free := none, capacity := alloc.capacity }
      else
        match lookupD allocationTextToNumFreeMapping s with
        | none => .error ("KeyError: " ++ s)
        | some n =>
            .ok { id := id, timestamp := now, lot_timestamp := lotTimestamp,
                  status := status0, num_free := some n,
                  capacity := alloc.capacity }

/-- The scraper entry point `BahnParking.get_lot_data` (lines 73-129):
skip facilities without live capacity, skip facilities whose address
does not contain `", 7"`, fetch and process the prognosis of the rest in
order. `fetch` stands for `self.request_json`. -/
def getLotData (now : String) (toUtc : String → String)
    (fetch : String → Prognosis) : List FacilityLite → Except String (List LotData)
  | [] => .ok []
  | f :: rest =>
      if f.has_live_capacity = false then getLotData now toUtc fetch rest
      else if containsSub ", 7" f.address = false then getLotData now toUtc fetch rest
      else do
        let alloc ← getAlloc (fetch f.source_url)
        let d ← procAlloc now toUtc f.id alloc
        let ds ← getLotData now toUtc fetch rest
        .ok (d :: ds)

/-! ### Static lot information (`get_lot_infos` and helpers)

The facility JSON is given the explicit schema the code assumes: keys
read with `facility[...]` are required fields, keys read with `.get` or
an `in` test are optional. -/

/-- One entry of the `capacity` array of a facility: its `type` and
`total` keys are accessed unconditionally; `total` is a string. -/
structure CapEntry where
  type : String
  total : String
deriving DecidableEq, Repr

/-- The `access.openingHours` node. -/
structure OpeningHoursJ where
  is24h : Bool
  text : Option String
deriving DecidableEq, Repr

/-- The `access.outOfService` node. -/
structure OutOfServiceJ where
  isOutOfService : Bool
deriving DecidableEq, Repr

/-- The `access` node of a facility. -/
structure AccessJ where
  outOfService : OutOfServiceJ
  openingHours : OpeningHoursJ
deriving DecidableEq, Repr

/-- The `address.location` node; JSON numbers are modelled as
rationals. -/
structure LocationJ where
  latitude : Rat
  longitude : Rat
deriving DecidableEq, Repr

/-- The `address` node of a facility: `zip`, `city` and
`streetAndNumber` are read with `.get`. -/
structure AddressJ where
  zip : Option String
  city : Option String
  streetAndNumber : Option String
  location : LocationJ
deriving DecidableEq, Repr

/-- The `equipment.charging` node. -/
structure ChargingJ where
  hasChargingStation : Bool
deriving DecidableEq, Repr

/-- The `equipment` node of a facility. -/
structure EquipmentJ where
  charging : ChargingJ
deriving DecidableEq, Repr

/-- The `group` node of a tariff price. -/
structure GroupJ where
  groupName : String
deriving DecidableEq, Repr

/-- One entry of `tariff.prices`: the `price` key may be JSON null. -/
structure PriceJ where
  price : Option Rat
  group : GroupJ
  duration : String
deriving DecidableEq, Repr

/-- The `tariff.information.dynamic` node, read with `.get`. -/
structure TariffDynamicJ where
  tariffMaxParkingTime : Option String
  tariffNotes : Option String
deriving DecidableEq, Repr

/-- The `tariff.information` node. -/
structure TariffInformationJ where
  dynamic : TariffDynamicJ
deriving DecidableEq, Repr

/-- The `tariff` node of a facility. -/
structure TariffJ where
  prices : List PriceJ
  information : TariffInformationJ
deriving DecidableEq, Repr

/-- One entry of the `name` array of a facility. -/
structure NameEntryJ where
  name : String
deriving DecidableEq, Repr

/-- The `type` node of a facility. -/
structure TypeJ where
  abbreviation : String
deriving DecidableEq, Repr

/-- The `operator` node of a facility. -/
structure OperatorJ where
  name : String
deriving DecidableEq, Repr

/-- A facility node of the `_embedded` array of the pool source URL:
the explicit schema of every key `get_lot_infos` and its helpers read.
The `capacity` key is optional — the code tests `"capacity" in
facility`. -/
structure FacilityJson where
  id : String
  name : List NameEntryJ
  type : TypeJ
  url : String
  address : AddressJ
  equipment : EquipmentJ
  hasPrognosis : Bool
  access : AccessJ
  capacity : Option (List CapEntry)
  operator : OperatorJ
  tariff : TariffJ
deriving DecidableEq, Repr

/-- The static description `LotInfo` as constructed by
`get_lot_infos` (lines 187-209). -/
structure LotInfo where
  id : String
  name : String
  type : String
  public_url : String
  source_url : String
  address : String
  capacity : Option Int
  capacity_disabled : Option Int
  capacity_charging : Int
  has_live_capacity : Bool
  latitude : Rat
  longitude : Rat
  opening_hours : String
  operator : String
  max_stay : Option String
  has_fee : Bool
  fee_description : String
  park_ride : Bool
  description : Option String
deriving DecidableEq, Repr

/-- Python `str.isnumeric` restricted to ASCII digit strings: non-empty
and all digits. -/
def isNumericStr (s : String) : Bool :=
  s.data ≠ [] && s.data.all Char.isDigit

/-- Scan of the `capacity` array in `get_capacity` (lines 132-134): the
first entry with the requested type and a numeric total wins. -/
def findCap (ty : String) : List CapEntry → Option Int
  | [] => none
  | e :: rest =>
      if e.type = ty ∧ isNumericStr e.total then
        some (digitsToNat e.total.data : Int)
      else findCap ty rest

/-- The helper `get_capacity` (lines 131-136): reading the `capacity`
key of a facility that lacks it is a KeyError. -/
def getCapacity (f : FacilityJson) (ty : String) : Except String (Option Int) :=
  match f.capacity with
  | none => .error "KeyError: capacity"
  | some entries => .ok (findCap ty entries)

/-- The helper `get_opening_hours` (lines 138-145): `"24/7"` for 24h
facilities, otherwise the chain of split/replace cleanups of the
free-text hours. -/
def getOpeningHours (f : FacilityJson) : String :=
  if f.access.openingHours.is24h = true then "24/7"
  else
    let t0 := (f.access.openingHours.text).getD ""
    let t1 := takeBefore t0 "."
    let t2 := takeBefore t1 ", Ausfahrt"
    let t3 := takeBefore t2 "."
    let t4 := replaceAll t3 ": " " "
    let t5 := replaceAll t4 " Uhr" ""
    let t6 := replaceAll t5 ", Sa,So+F geschlossen" ""
    let t7 := replaceAll t6 ", So+F geschlossen" ""
    replaceAll t7 " - " "-"

/-- Rendering of Python `f.2f` fixed-point formatting of a JSON price,
modelled arithmetically over rationals: round to cents (half away from
zero does not occur for the non-negative prices at hand; half up is
used) and print with exactly two decimals. -/
def formatFixed2 (q : Rat) : String :=
  let cents : Int := ⌊q * 100 + 1 / 2⌋
  let intPart : Int := cents / 100
  let rem : Int := cents % 100
  let fracStr : String := if rem < 10 then "0" ++ toString rem else toString rem
  toString intPart ++ "." ++ fracStr

/-- Rendering of the fee strings of `get_fee_description` (line 149): a
duration code missing from the vocabulary table is a KeyError that
escapes `get_lot_infos` (a fatal configuration error). -/
def feeStrings : List PriceJ → Except String (List String)
  | [] => .ok []
  | p :: rest =>
      match lookupD feeDurationMapping p.duration with
      | none => .error ("KeyError: " ++ p.duration)
      | some label => do
          let restStrs ← feeStrings rest
          .ok ((label ++ ": " ++ formatFixed2 (p.price.getD 0) ++ "€") :: restStrs)

/-- The helper `get_fee_description` (lines 147-150): keep the prices of
the `standard` group that are not null, render each, and join with
commas. -/
def getFeeDescription (f : FacilityJson) : Except String String :=
  let fees := f.tariff.prices.filter
    (fun p => p.price.isSome && p.group.groupName = "standard")
  do
    let strs ← feeStrings fees
    .ok (String.intercalate ", " strs)

/-- The helper `get_max_stay` (lines 152-154). -/
def getMaxStay (f : FacilityJson) : Option String :=
  f.tariff.information.dynamic.tariffMaxParkingTime

/-- The helper `get_address` (lines 156-159): joining with a missing
`zip`, `city` or `streetAndNumber` is a TypeError that escapes
`get_lot_infos`. -/
def getAddress (f : FacilityJson) : Except String String :=
  match f.address.streetAndNumber, f.address.zip, f.address.city with
  | some s, some z, some c => .ok (s ++ ", " ++ z ++ " " ++ c)
  | _, _, _ => .error "TypeError: sequence item is None"

/-- The helper `should_ignore` (lines 161-169): skip out-of-service
facilities and facilities without a `capacity` key; the implicit `None`
return for the remaining facilities is falsy. -/
def shouldIgnore (f : FacilityJson) : Bool :=
  f.access.outOfService.isOutOfService || f.capacity.isNone

/-- Construction of one `LotInfo` (lines 184-208) in the source's
evaluation order: fee description first, then the keyword arguments;
`facility["name"][1]` is an IndexError when the name array is short.
`nameToId` stands for the helper `name_to_id` of the util package
(modelled from the spec as an abstract provider-prefix namespacing
function; it is not under src/). -/
def mkLotInfo (nameToId : String → String → String) (f : FacilityJson) :
    Except String LotInfo := do
  let feeDescription ← getFeeDescription f
  let nameEntry ←
    match f.name.get? 1 with
    | none => Except.error "IndexError: name"
    | some ne => Except.ok ne
  let addr ← getAddress f
  let cap ← getCapacity f "PARKING"
  let capDisabled ← getCapacity f "HANDICAPPED_PARKING"
  .ok
    { id := nameToId "db" f.id
      name := nameEntry.name
      type := f.type.abbreviation
      public_url := f.url
      source_url := poolSourceUrl ++ "/" ++ f.id ++ "/prognoses"
      address := addr
      capacity := cap
      capacity_disabled := capDisabled
      capacity_charging := if f.equipment.charging.hasChargingStation = true then 1 else 0
      has_live_capacity := f.hasPrognosis
      latitude := f.address.location.latitude
      longitude := f.address.location.longitude
      opening_hours := getOpeningHours f
      operator := f.operator.name
      max_stay := getMaxStay f
      has_fee := feeDescription.length > 0
      fee_description := feeDescription
      park_ride := true
      description := f.tariff.information.dynamic.tariffNotes }

/-- The entry point `BahnParking.get_lot_infos` (lines 171-211): skip
ignored facilities, build a `LotInfo` for the rest in order; an escaped
exception on any facility aborts the whole call. -/
def getLotInfos (nameToId : String → String → String) :
    List FacilityJson → Except String (List LotInfo)
  | [] => .ok []
  | f :: rest =>
      if shouldIgnore f then getLotInfos nameToId rest
      else do
        let info ← mkLotInfo nameToId f
        let infos ← getLotInfos nameToId rest
        .ok (info :: infos)

end Bahn

/-! ## Helper lemmas -/

/-- Lookup after insertion: the inserted key reads back the new value,
every other key is unaffected. -/
theorem lookupD_dset (d : List (String × String)) (k v k' : String) :
    lookupD (dset d k v) k' = if k' = k then some v else lookupD d k' := by
  induction d with
  | nil => simp [dset, lookupD]
  | cons p rest ih =>
      obtain ⟨k₁, v₁⟩ := p
      by_cases hk : k = k₁
      · subst hk
        by_cases hk' : k' = k <;> simp [dset, lookupD, hk']
      · by_cases hk' : k' = k₁
        · subst hk'
          simp [dset, lookupD, hk, Ne.symm hk]
        · simp [dset, lookupD, hk, hk', ih]

/-- Folding dict insertions whose keys all differ from `k` does not
change the binding of `k`. -/
theorem lookupD_foldl_dset_of_not_mem (pairs : List (String × String))
    (init : List (String × String)) (k : String)
    (h : ∀ p ∈ pairs, p.1 ≠ k) :
    lookupD (pairs.foldl (fun d kv => dset d kv.1 kv.2) init) k =
      lookupD init k := by
  induction pairs generalizing init with
  | nil => rfl
  | cons p rest ih =>
      have hp : p.1 ≠ k := h p (List.mem_cons_self _ _)
      have hrest : ∀ q ∈ rest, q.1 ≠ k := fun q hq => h q (List.mem_cons_of_mem _ hq)
      simp only [List.foldl_cons]
      rw [ih _ hrest, lookupD_dset, if_neg (fun hkk => hp hkk.symm)]

namespace Neckarsulm

/-- The comma-to-dot character rewrite is idempotent pointwise. -/
theorem commaChar_idem (c : Char) :
    (if (if c = ',' then '.' else c) = ',' then '.' else if c = ',' then '.' else c) =
      (if c = ',' then '.' else c) := by
  by_cases h : c = ',' <;> simp [h]

/-- The comma-to-dot character rewrite preserves digit-hood. -/
theorem isDigit_commaChar (c : Char) :
    (if c = ',' then '.' else c).isDigit = c.isDigit := by
  by_cases h : c = ','
  · subst h; decide
  · simp [h]

/-- Rewriting commas to dots preserves the digit test. -/
theorem containsDigit_commaToDot (s : String) :
    containsDigit (commaToDot s) = containsDigit s := by
  show (s.data.map fun c => if c = ',' then '.' else c).any Char.isDigit =
    s.data.any Char.isDigit
  induction s.data with
  | nil => rfl
  | cons c l ih => simp [List.any_cons, ih, isDigit_commaChar c]

/-- The comma-to-dot rewrite is idempotent on strings. -/
theorem commaToDot_idem (s : String) :
    commaToDot (commaToDot s) = commaToDot s := by
  show String.mk ((s.data.map _).map _) = String.mk (s.data.map _)
  rw [List.map_map]
  exact congrArg String.mk (List.map_congr_left fun c _ => commaChar_idem c)

/-- A comma-free string is unchanged by the comma-to-dot rewrite. -/
theorem commaToDot_of_not_mem (s : String) (h : ',' ∉ s.data) :
    commaToDot s = s := by
  show String.mk (s.data.map _) = s
  have hmap : s.data.map (fun c => if c = ',' then '.' else c) = s.data := by
    have : s.data.map (fun c => if c = ',' then '.' else c) = s.data.map id :=
      List.map_congr_left fun c hc => by
        have hne : c ≠ ',' := fun hc' => h (hc' ▸ hc)
        simp [hne]
    rw [this, List.map_id]
  rw [hmap]

end Neckarsulm

/-! ## Claim C7 -/

/-- C7: locale decimal parsing is idempotent — for every raw coordinate
string, applying the comma-to-dot normalization of `handle_csv` twice
yields the same result as applying it once, and a string without commas
(already in dot format) passes through unchanged. -/
theorem C7_locale_decimal_idempotent (s : String) :
    Neckarsulm.normalizeCommaDecimal (Neckarsulm.normalizeCommaDecimal s) =
      Neckarsulm.normalizeCommaDecimal s ∧
    (',' ∉ s.data → Neckarsulm.normalizeCommaDecimal s = s) := by
  constructor
  · by_cases hd : containsDigit s = true
    · have h1 : Neckarsulm.normalizeCommaDecimal s = commaToDot s := by
        rw [Neckarsulm.normalizeCommaDecimal, if_pos hd]
      rw [h1, Neckarsulm.normalizeCommaDecimal,
        if_pos ((Neckarsulm.containsDigit_commaToDot s).trans hd),
        Neckarsulm.commaToDot_idem]
    · have h1 : Neckarsulm.normalizeCommaDecimal s = s := by
        rw [Neckarsulm.normalizeCommaDecimal, if_neg hd]
      rw [h1, h1]
  · intro h
    by_cases hd : containsDigit s = true
    · rw [Neckarsulm.normalizeCommaDecimal, if_pos hd,
        Neckarsulm.commaToDot_of_not_mem s h]
    · rw [Neckarsulm.normalizeCommaDecimal, if_neg hd]

/-- Witness for C7: the normalization maps `"48,1173"` to `"48.1173"`,
renormalizing gives the same value, and the dot-formatted string is a
fixed point. -/
theorem C7_witness :
    Neckarsulm.normalizeCommaDecimal "48,1173" = "48.1173" ∧
    Neckarsulm.normalizeCommaDecimal (Neckarsulm.normalizeCommaDecimal "48,1173") =
      Neckarsulm.normalizeCommaDecimal "48,1173" ∧
    Neckarsulm.normalizeCommaDecimal "48.1173" = "48.1173" :=
  ⟨by decide, (C7_locale_decimal_idempotent "48,1173").1,
   (C7_locale_decimal_idempotent "48.1173").2 (by decide)⟩

/-! ## Concrete Bahn scenarios -/

namespace Bahn

/-- A live facility in postal code area 7 used in concrete scenarios. -/
def facGood : FacilityLite :=
  { id := "F1", has_live_capacity := true,
    address := "Hauptstr. 1, 74172 Neckarsulm", source_url := "u1" }

/-- A live facility whose prognosis carries an unrecognized vacancy
text. -/
def facUnknownBucket : FacilityLite :=
  { id := "F2", has_live_capacity := true,
    address := "Bahnhofstr. 2, 70173 Stuttgart", source_url := "u2" }

/-- The occupancy node with valid data and the unrecognized vacancy
bucket `">100"`. -/
def allocUnknown : Alloc :=
  { timeSegment := none, validData := some true, capacity := some 50,
    vacancyText := some ">100" }

/-- A fetch function serving the two facilities above: a recognized
bucket for `u1`, the unrecognized bucket for `u2`. -/
def fetchScenario : String → Prognosis := fun u =>
  if u = "u1" then
    ⟨[⟨{ timeSegment := none, validData := some true, capacity := some 100,
          vacancyText := some "bis 10" }⟩]⟩
  else if u = "u2" then ⟨[⟨allocUnknown⟩]⟩
  else ⟨[]⟩

/-- A live facility in area 7 whose prognosis reports a capacity below
the bucket floor estimate. -/
def facSmallCap : FacilityLite :=
  { id := "F4", has_live_capacity := true,
    address := "Weg 3, 74172 Neckarsulm", source_url := "u4" }

/-- A fetch function reporting capacity 3 with vacancy bucket
`"bis 10"` (floor estimate 5). -/
def fetchSmallCap : String → Prognosis := fun _ =>
  ⟨[⟨{ timeSegment := none, validData := some true, capacity := some 3,
        vacancyText := some "bis 10" }⟩]⟩

/-- Modelled from the spec: the `LotData` record validator of the util
package (the validation layer is not under src/): an observation with
both `num_free` and `capacity` present is rejected when `num_free`
exceeds `capacity`. Only the rule the claim concerns is modelled. -/
def validateLotData (d : LotData) : Bool :=
  match d.num_free, d.capacity with
  | some nf, some c => decide (nf ≤ c)
  | _, _ => true

end Bahn

/-! ## Claim C3 -/

/-- C3 counterexample: the batch is not isolated from an unrecognized
bucket — with the unrecognized vacancy text `">100"` on the second of
three facilities, `get_lot_data` fails as a whole (while the first
facility alone would succeed), so the adapter does abort the rest of the
batch, contrary to the claim. -/
theorem C3_counterexample :
    lookupD Bahn.allocationTextToNumFreeMapping ">100" = none ∧
    (Bahn.getLotData "T" id Bahn.fetchScenario
        [Bahn.facGood, Bahn.facUnknownBucket, Bahn.facGood]).isOk = false ∧
    (Bahn.getLotData "T" id Bahn.fetchScenario [Bahn.facGood]).isOk = true := by
  decide

/-- C3 (amended): the occupancy-text mapping is total over exactly the
domain `bis 10 / >10 / >30 / >50` with values 5, 11, 31, 51; every other
vacancy text fails the lookup and never yields a guessed number — but a
present, non-empty, unrecognized vacancy text raises a KeyError that
aborts the entire `get_lot_data` call instead of marking only that
observation as erroneous. -/
theorem C3_amended :
    (lookupD Bahn.allocationTextToNumFreeMapping "bis 10" = some 5 ∧
     lookupD Bahn.allocationTextToNumFreeMapping ">10" = some 11 ∧
     lookupD Bahn.allocationTextToNumFreeMapping ">30" = some 31 ∧
     lookupD Bahn.allocationTextToNumFreeMapping ">50" = some 51) ∧
    (∀ s : String, s ∉ ["bis 10", ">10", ">30", ">50"] →
      lookupD Bahn.allocationTextToNumFreeMapping s = none) ∧
    (∀ (now : String) (toUtc : String → String) (lotId : String)
        (alloc : Bahn.Alloc) (s : String),
      alloc.vacancyText = some s → s ≠ "" →
      lookupD Bahn.allocationTextToNumFreeMapping s = none →
      Bahn.procAlloc now toUtc lotId alloc = .error ("KeyError: " ++ s)) := by
  refine ⟨⟨rfl, rfl, rfl, rfl⟩, ?_, ?_⟩
  · intro s hs
    have h4 : s ≠ "bis 10" ∧ s ≠ ">10" ∧ s ≠ ">30" ∧ s ≠ ">50" := by
      simpa using hs
    simp [Bahn.allocationTextToNumFreeMapping, lookupD, h4.1, h4.2.1,
      h4.2.2.1, h4.2.2.2]
  · intro now toUtc lotId alloc s hv hne hlk
    simp [Bahn.procAlloc, hv, hne, hlk]

/-- Witness for C3 (amended): a recognized bucket, an unrecognized text
with no guessed number, and the concrete KeyError. -/
theorem C3_witness :
    lookupD Bahn.allocationTextToNumFreeMapping "bis 10" = some 5 ∧
    lookupD Bahn.allocationTextToNumFreeMapping "unbekannt" = none ∧
    Bahn.procAlloc "T" id "F2" Bahn.allocUnknown = .error ("KeyError: " ++ ">100") :=
  ⟨C3_amended.1.1, C3_amended.2.1 "unbekannt" (by decide),
   C3_amended.2.2 "T" id "F2" Bahn.allocUnknown ">100" rfl (by decide) (by decide)⟩

/-! ## Claim C4 -/

/-- C4 counterexample: at the concrete observation with `validData` true
and the present but unrecognized vacancy bucket `">100"`, the processing
raises instead of deriving any observation — in particular it does not
produce an observation with status `error` and `num_free` unset, contrary
to the claimed state machine. -/
theorem C4_counterexample :
    Bahn.allocUnknown.validData = some true ∧
    Bahn.allocUnknown.vacancyText = some ">100" ∧
    (Bahn.procAlloc "T" id "F2" Bahn.allocUnknown).toOption = none ∧
    ¬ ∃ d : Bahn.LotData, Bahn.procAlloc "T" id "F2" Bahn.allocUnknown = .ok d := by
  refine ⟨rfl, rfl, rfl, ?_⟩
  rintro ⟨d, hd⟩
  have hev : Bahn.procAlloc "T" id "F2" Bahn.allocUnknown =
      .error ("KeyError: " ++ ">100") := rfl
  rw [hev] at hd
  exact Except.noConfusion hd

/-- C4 (amended): the status derivation of `get_lot_data` follows the
state machine only on the defined cases — `validData` falsy gives
`nodata`; `validData` truthy with an absent or empty vacancy text gives
`error` with `num_free` unset; `validData` truthy with a recognized
bucket gives `open` with `num_free` set; a falsy `validData` with a
recognized bucket still sets `num_free`; and a present, non-empty,
unrecognized vacancy text raises a KeyError aborting the call instead of
yielding any status. -/
theorem C4_amended (now : String) (toUtc : String → String) (lotId : String)
    (alloc : Bahn.Alloc) :
    (alloc.validData ≠ some true →
      (alloc.vacancyText = none ∨ alloc.vacancyText = some "") →
      ∃ d, Bahn.procAlloc now toUtc lotId alloc = .ok d ∧
        d.status = .nodata ∧ d.num_free = none) ∧
    (∀ s n, alloc.validData ≠ some true → alloc.vacancyText = some s → s ≠ "" →
      lookupD Bahn.allocationTextToNumFreeMapping s = some n →
      ∃ d, Bahn.procAlloc now toUtc lotId alloc = .ok d ∧
        d.status = .nodata ∧ d.num_free = some n) ∧
    (alloc.validData = some true →
      (alloc.vacancyText = none ∨ alloc.vacancyText = some "") →
      ∃ d, Bahn.procAlloc now toUtc lotId alloc = .ok d ∧
        d.status = .error ∧ d.num_free = none) ∧
    (∀ s n, alloc.validData = some true → alloc.vacancyText = some s → s ≠ "" →
      lookupD Bahn.allocationTextToNumFreeMapping s = some n →
      ∃ d, Bahn.procAlloc now toUtc lotId alloc = .ok d ∧
        d.status = .opened ∧ d.num_free = some n) ∧
    (∀ s, alloc.vacancyText = some s → s ≠ "" →
      lookupD Bahn.allocationTextToNumFreeMapping s = none →
      Bahn.procAlloc now toUtc lotId alloc = .error ("KeyError: " ++ s)) := by
  refine ⟨?_, ?_, ?_, ?_, ?_⟩
  · intro hvd hv
    refine ⟨⟨lotId, now, Bahn.lotTs toUtc alloc.timeSegment, .nodata, none,
      alloc.capacity⟩, ?_, rfl, rfl⟩
    rcases hv with hv | hv <;> simp [Bahn.procAlloc, hv, hvd]
  · intro s n hvd hv hne hlk
    refine ⟨⟨lotId, now, Bahn.lotTs toUtc alloc.timeSegment, .nodata, some n,
      alloc.capacity⟩, ?_, rfl, rfl⟩
    simp [Bahn.procAlloc, hv, hne, hlk, hvd]
  · intro hvd hv
    refine ⟨⟨lotId, now, Bahn.lotTs toUtc alloc.timeSegment, .error, none,
      alloc.capacity⟩, ?_, rfl, rfl⟩
    rcases hv with hv | hv <;> simp [Bahn.procAlloc, hv, hvd]
  · intro s n hvd hv hne hlk
    refine ⟨⟨lotId, now, Bahn.lotTs toUtc alloc.timeSegment, .opened, some n,
      alloc.capacity⟩, ?_, rfl, rfl⟩
    simp [Bahn.procAlloc, hv, hne, hlk, hvd]
  · intro s hv hne hlk
    simp [Bahn.procAlloc, hv, hne, hlk]

/-- Witness for C4 (amended): one concrete observation per arm of the
state machine, including the aborting unrecognized-bucket case. -/
theorem C4_witness :
    (∃ d, Bahn.procAlloc "T" id "L"
        ⟨none, some false, none, none⟩ = .ok d ∧
      d.status = .nodata ∧ d.num_free = none) ∧
    (∃ d, Bahn.procAlloc "T" id "L"
        ⟨none, none, none, some "bis 10"⟩ = .ok d ∧
      d.status = .nodata ∧ d.num_free = some 5) ∧
    (∃ d, Bahn.procAlloc "T" id "L"
        ⟨none, some true, none, some ""⟩ = .ok d ∧
      d.status = .error ∧ d.num_free = none) ∧
    (∃ d, Bahn.procAlloc "T" id "L"
        ⟨none, some true, none, some ">30"⟩ = .ok d ∧
      d.status = .opened ∧ d.num_free = some 31) ∧
    Bahn.procAlloc "T" id "F2" Bahn.allocUnknown = .error ("KeyError: " ++ ">100") :=
  ⟨(C4_amended "T" id "L" ⟨none, some false, none, none⟩).1 (by decide) (Or.inl rfl),
   (C4_amended "T" id "L" ⟨none, none, none, some "bis 10"⟩).2.1 "bis 10" 5
     (by decide) rfl (by decide) rfl,
   (C4_amended "T" id "L" ⟨none, some true, none, some ""⟩).2.2.1 rfl (Or.inr rfl),
   (C4_amended "T" id "L" ⟨none, some true, none, some ">30"⟩).2.2.2.1 ">30" 31
     rfl rfl (by decide) rfl,
   (C4_amended "T" id "F2" Bahn.allocUnknown).2.2.2.2 ">100" rfl (by decide) (by decide)⟩

/-! ## Claims C9 and C10: inversion lemmas -/

namespace Bahn

/-- Successful allocation processing keeps the facility id. -/
theorem procAlloc_id (now : String) (toUtc : String → String) (i : String)
    (alloc : Alloc) (d : LotData) (h : procAlloc now toUtc i alloc = .ok d) :
    d.id = i := by
  rcases hv : alloc.vacancyText with _ | s
  · simp only [procAlloc, hv, Except.ok.injEq] at h
    rw [← h]
  · simp only [procAlloc, hv] at h
    by_cases hs : s = ""
    · rw [if_pos hs] at h
      simp only [Except.ok.injEq] at h
      rw [← h]
    · rw [if_neg hs] at h
      rcases hlk : lookupD allocationTextToNumFreeMapping s with _ | n
      · rw [hlk] at h
        exact Except.noConfusion h
      · rw [hlk] at h
        simp only [Except.ok.injEq] at h
        rw [← h]

/-- Inversion of a successful `getLotData` step on a facility that
passes both filters. -/
theorem getLotData_cons_ok (now : String) (toUtc : String → String)
    (fetch : String → Prognosis) (f : FacilityLite) (rest : List FacilityLite)
    (lots : List LotData) (hl : ¬ f.has_live_capacity = false)
    (ha : ¬ containsSub ", 7" f.address = false)
    (h : getLotData now toUtc fetch (f :: rest) = .ok lots) :
    ∃ alloc d ds, getAlloc (fetch f.source_url) = .ok alloc ∧
      procAlloc now toUtc f.id alloc = .ok d ∧
      getLotData now toUtc fetch rest = .ok ds ∧ lots = d :: ds := by
  simp only [getLotData, if_neg hl, if_neg ha] at h
  rcases h1 : getAlloc (fetch f.source_url) with e | alloc
  · rw [h1] at h
    simp only [bind, Except.bind] at h
    exact Except.noConfusion h
  · rw [h1] at h
    simp only [bind, Except.bind] at h
    rcases h2 : procAlloc now toUtc f.id alloc with e | d
    · rw [h2] at h
      simp only [Except.bind] at h
      exact Except.noConfusion h
    · rw [h2] at h
      simp only [Except.bind] at h
      rcases h3 : getLotData now toUtc fetch rest with e | ds
      · rw [h3] at h
        simp only [Except.bind] at h
        exact Except.noConfusion h
      · rw [h3] at h
        simp only [Except.bind, Except.ok.injEq] at h
        exact ⟨alloc, d, ds, rfl, h2, rfl, h.symm⟩

/-- Inversion of a successful `mkLotInfo`: the produced record is the
one built from the facility's pieces; in particular `capacity_charging`
is the charging-station indicator. -/
theorem mkLotInfo_capacity_charging (nameToId : String → String → String)
    (f : FacilityJson) (info : LotInfo) (h : mkLotInfo nameToId f = .ok info) :
    info.capacity_charging =
      if f.equipment.charging.hasChargingStation = true then 1 else 0 := by
  simp only [mkLotInfo] at h
  rcases h1 : getFeeDescription f with e | fd
  · rw [h1] at h
    simp only [bind, Except.bind] at h
    exact Except.noConfusion h
  · rw [h1] at h
    simp only [bind, Except.bind] at h
    rcases h2 : f.name.get? 1 with _ | ne
    · rw [h2] at h
      simp only [bind, Except.bind] at h
      exact Except.noConfusion h
    · rw [h2] at h
      simp only [bind, Except.bind] at h
      rcases h3 : getAddress f with e | addr
      · rw [h3] at h
        simp only [Except.bind] at h
        exact Except.noConfusion h
      · rw [h3] at h
        simp only [Except.bind] at h
        rcases h4 : getCapacity f "PARKING" with e | cap
        · rw [h4] at h
          simp only [Except.bind] at h
          exact Except.noConfusion h
        · rw [h4] at h
          simp only [Except.bind] at h
          rcases h5 : getCapacity f "HANDICAPPED_PARKING" with e | capd
          · rw [h5] at h
            simp only [Except.bind] at h
            exact Except.noConfusion h
          · rw [h5] at h
            simp only [Except.bind, Except.ok.injEq] at h
            rw [← h]

end Bahn

/-! ## Claim C9 -/

/-- C9: every LotData emitted by `get_lot_data` originates from a
facility with `has_live_capacity` true whose address contains `", 7"`,
and a facility failing either test is silently skipped — the call on it
returns exactly the result for the remaining facilities, contributing
neither a success nor an error entry. -/
theorem C9_live_and_area_filter (now : String) (toUtc : String → String)
    (fetch : String → Bahn.Prognosis) (f : Bahn.FacilityLite)
    (rest facs : List Bahn.FacilityLite) (lots : List Bahn.LotData) :
    (f.has_live_capacity = false ∨ containsSub ", 7" f.address = false →
      Bahn.getLotData now toUtc fetch (f :: rest) =
        Bahn.getLotData now toUtc fetch rest) ∧
    (Bahn.getLotData now toUtc fetch facs = .ok lots →
      ∀ l ∈ lots, ∃ g ∈ facs, g.id = l.id ∧ g.has_live_capacity = true ∧
        containsSub ", 7" g.address = true) := by
  constructor
  · intro h
    rcases h with hl | ha
    · simp [Bahn.getLotData, hl]
    · by_cases hl : f.has_live_capacity = false
      · simp [Bahn.getLotData, hl]
      · simp [Bahn.getLotData, hl, ha]
  · clear f rest
    induction facs generalizing lots with
    | nil =>
        intro h l hlmem
        simp only [Bahn.getLotData, Except.ok.injEq] at h
        subst h
        exact absurd hlmem (List.not_mem_nil l)
    | cons g gs ih =>
        intro h l hlmem
        by_cases hl : g.has_live_capacity = false
        · have hskip : Bahn.getLotData now toUtc fetch (g :: gs) =
              Bahn.getLotData now toUtc fetch gs := by
            simp [Bahn.getLotData, hl]
          obtain ⟨g', hg', hp⟩ := ih lots (hskip ▸ h) l hlmem
          exact ⟨g', List.mem_cons_of_mem _ hg', hp⟩
        · by_cases ha : containsSub ", 7" g.address = false
          · have hskip : Bahn.getLotData now toUtc fetch (g :: gs) =
                Bahn.getLotData now toUtc fetch gs := by
              simp [Bahn.getLotData, hl, ha]
            obtain ⟨g', hg', hp⟩ := ih lots (hskip ▸ h) l hlmem
            exact ⟨g', List.mem_cons_of_mem _ hg', hp⟩
          · obtain ⟨alloc, d, ds, _, hproc, hrest, hlots⟩ :=
              Bahn.getLotData_cons_ok now toUtc fetch g gs lots hl ha h
            subst hlots
            rcases List.mem_cons.mp hlmem with rfl | hmem
            · refine ⟨g, List.mem_cons_self _ _, ?_, ?_, ?_⟩
              · exact (Bahn.procAlloc_id now toUtc g.id alloc l hproc).symm
              · exact eq_true_of_ne_false hl
              · exact eq_true_of_ne_false ha
            · obtain ⟨g', hg', hp⟩ := ih ds hrest l hmem
              exact ⟨g', List.mem_cons_of_mem _ hg', hp⟩

/-- The concrete observation list produced by the C9 witness scenario. -/
def lotsGoodScenario : List Bahn.LotData :=
  [⟨"F1", "T", none, .opened, some 5, some 100⟩]

/-- Witness for C9: a facility without live capacity is skipped without
a trace, and the emitted observation of the concrete one-facility batch
originates from a facility passing both filters. -/
theorem C9_witness :
    Bahn.getLotData "T" id Bahn.fetchScenario
        [⟨"F3", false, "X, 74172 Neckarsulm", "u3"⟩, Bahn.facGood] =
      Bahn.getLotData "T" id Bahn.fetchScenario [Bahn.facGood] ∧
    (∀ l ∈ lotsGoodScenario, ∃ g ∈ [Bahn.facGood], g.id = l.id ∧
      g.has_live_capacity = true ∧ containsSub ", 7" g.address = true) :=
  ⟨(C9_live_and_area_filter "T" id Bahn.fetchScenario
      ⟨"F3", false, "X, 74172 Neckarsulm", "u3"⟩ [Bahn.facGood] [] []).1
      (Or.inl rfl),
   (C9_live_and_area_filter "T" id Bahn.fetchScenario Bahn.facGood []
      [Bahn.facGood] lotsGoodScenario).2 rfl⟩

/-! ## Claim C10 -/

/-- Inversion of a successful `getLotInfos` step on a facility that is
not ignored. -/
theorem Bahn.getLotInfos_cons_ok (nameToId : String → String → String)
    (f : Bahn.FacilityJson) (rest : List Bahn.FacilityJson)
    (infos : List Bahn.LotInfo) (hig : ¬ Bahn.shouldIgnore f = true)
    (h : Bahn.getLotInfos nameToId (f :: rest) = .ok infos) :
    ∃ info infos', Bahn.mkLotInfo nameToId f = .ok info ∧
      Bahn.getLotInfos nameToId rest = .ok infos' ∧ infos = info :: infos' := by
  simp only [Bahn.getLotInfos, if_neg hig] at h
  rcases h1 : Bahn.mkLotInfo nameToId f with e | info
  · rw [h1] at h
    simp only [bind, Except.bind] at h
    exact Except.noConfusion h
  · rw [h1] at h
    simp only [bind, Except.bind] at h
    rcases h2 : Bahn.getLotInfos nameToId rest with e | infos'
    · rw [h2] at h
      simp only [Except.bind] at h
      exact Except.noConfusion h
    · rw [h2] at h
      simp only [Except.bind, Except.ok.injEq] at h
      exact ⟨info, infos', rfl, rfl, h.symm⟩

/-- C10: in every `LotInfo` produced by `get_lot_infos`,
`capacity_charging` is the charging-station indicator of its source
facility — exactly 1 when the equipment reports a charging station and
exactly 0 otherwise — and in particular never greater than 1. -/
theorem C10_capacity_charging_indicator (nameToId : String → String → String)
    (facs : List Bahn.FacilityJson) (infos : List Bahn.LotInfo)
    (h : Bahn.getLotInfos nameToId facs = .ok infos) :
    ∀ i ∈ infos, i.capacity_charging ≤ 1 ∧ ∃ f ∈ facs,
      i.capacity_charging =
        if f.equipment.charging.hasChargingStation = true then 1 else 0 := by
  induction facs generalizing infos with
  | nil =>
      intro i hi
      simp only [Bahn.getLotInfos, Except.ok.injEq] at h
      subst h
      exact absurd hi (List.not_mem_nil i)
  | cons g gs ih =>
      intro i hi
      by_cases hig : Bahn.shouldIgnore g = true
      · have hskip : Bahn.getLotInfos nameToId (g :: gs) =
            Bahn.getLotInfos nameToId gs := by
          simp [Bahn.getLotInfos, hig]
        rw [hskip] at h
        obtain ⟨hle, f, hf, hp⟩ := ih infos h i hi
        exact ⟨hle, f, List.mem_cons_of_mem _ hf, hp⟩
      · obtain ⟨info, infos', hmk, hrest, hcons⟩ :=
          Bahn.getLotInfos_cons_ok nameToId g gs infos hig h
        subst hcons
        rcases List.mem_cons.mp hi with rfl | hmem
        · have hcc := Bahn.mkLotInfo_capacity_charging nameToId g i hmk
          constructor
          · rw [hcc]
            split <;> decide
          · exact ⟨g, List.mem_cons_self _ _, hcc⟩
        · obtain ⟨hle, f, hf, hp⟩ := ih infos' hrest i hmem
          exact ⟨hle, f, List.mem_cons_of_mem _ hf, hp⟩

/-- The facility used by the C10 witness: a 24-hour facility with a
charging station and an empty price list. -/
def facCharging : Bahn.FacilityJson :=
  { id := "1", name := [⟨"N0"⟩, ⟨"B"⟩], type := ⟨"P"⟩, url := "u",
    address := { zip := some "74172", city := some "Neckarsulm",
                 streetAndNumber := some "Hauptstr. 1",
                 location := ⟨49, 9⟩ },
    equipment := ⟨⟨true⟩⟩, hasPrognosis := true,
    access := { outOfService := ⟨false⟩,
                openingHours := { is24h := true, text := none } },
    capacity := some [⟨"PARKING", "120"⟩],
    operator := ⟨"O"⟩,
    tariff := { prices := [],
                information := ⟨{ tariffMaxParkingTime := none,
                                  tariffNotes := none }⟩ } }

/-- The `LotInfo` produced from `facCharging`. -/
def infoCharging : Bahn.LotInfo :=
  { id := "db-1", name := "B", type := "P", public_url := "u",
    source_url := Bahn.poolSourceUrl ++ "/1/prognoses",
    address := "Hauptstr. 1, 74172 Neckarsulm",
    capacity := some 120, capacity_disabled := none, capacity_charging := 1,
    has_live_capacity := true, latitude := 49, longitude := 9,
    opening_hours := "24/7", operator := "O", max_stay := none,
    has_fee := false, fee_description := "", park_ride := true,
    description := none }

/-- Witness for C10: the concrete facility with a charging station
yields `capacity_charging = 1 ≤ 1`. -/
theorem C10_witness :
    infoCharging.capacity_charging ≤ 1 ∧ ∃ f ∈ [facCharging],
      infoCharging.capacity_charging =
        if f.equipment.charging.hasChargingStation = true then 1 else 0 :=
  C10_capacity_charging_indicator (fun p n => p ++ "-" ++ n)
    [facCharging] [infoCharging] rfl infoCharging
    (List.mem_singleton.mpr rfl)

/-! ## Claim C6 -/

/-- C6 counterexample: `get_lot_data` itself emits an observation with
`num_free = 5` and `capacity = 3` — `num_free` present, `capacity`
present and `num_free` greater — which the (spec-modelled) record
validator rejects; so it is not true that no emitted observation
violates the bound. -/
theorem C6_counterexample :
    (Bahn.getLotData "T" id Bahn.fetchSmallCap [Bahn.facSmallCap]).toOption.map
        (List.map fun d => (d.num_free, d.capacity, Bahn.validateLotData d)) =
      some [(some 5, some 3, false)] := by decide

/-- C6 (amended): the record validator (modelled from the spec; the
validation layer is not under src/) accepts an observation with both
`num_free` and `capacity` present only when `num_free ≤ capacity` — but
`BahnParking.get_lot_data` performs no such check itself and can emit
observations with `num_free` exceeding `capacity`, since the bucket
floor estimate is independent of the reported capacity. -/
theorem C6_amended (d : Bahn.LotData) (nf c : Int)
    (h : Bahn.validateLotData d = true)
    (h1 : d.num_free = some nf) (h2 : d.capacity = some c) : nf ≤ c := by
  unfold Bahn.validateLotData at h
  rw [h1, h2] at h
  simpa using h

/-- Witness for C6 (amended): a concrete observation accepted by the
modelled validator satisfies the bound. -/
theorem C6_witness :
    Bahn.validateLotData
      { id := "L", timestamp := "T", lot_timestamp := none,
        status := .opened, num_free := some 5, capacity := some 100 } = true ∧
    (5 : Int) ≤ 100 :=
  ⟨by decide,
   C6_amended
     { id := "L", timestamp := "T", lot_timestamp := none,
       status := .opened, num_free := some 5, capacity := some 100 }
     5 100 (by decide) rfl rfl⟩

/-! ## Claim C1: totality of row processing -/

namespace Neckarsulm

/-- On a row with at least five cells, the positional dictionary binds
`lat` to the fourth and `lon` to the fifth cell. -/
theorem lookupD_zipDict_latlon (a b c d e : String) (rest : List String) :
    lookupD (zipDict headerRow (a :: b :: c :: d :: e :: rest)) "lat" = some d ∧
    lookupD (zipDict headerRow (a :: b :: c :: d :: e :: rest)) "lon" = some e := by
  have hzip : zipDict headerRow (a :: b :: c :: d :: e :: rest) =
      ((headerRow.drop 5).zip rest).foldl (fun dd kv => dset dd kv.1 kv.2)
        [("uid", a), ("name", b), ("type", c), ("lat", d), ("lon", e)] := rfl
  have hmem : ∀ k : String, k ∉ headerRow.drop 5 →
      ∀ p ∈ (headerRow.drop 5).zip rest, p.1 ≠ k := by
    intro k hk p hp
    obtain ⟨x, y⟩ := p
    have hx : x ∈ headerRow.drop 5 := (List.of_mem_zip hp).1
    exact fun heq => hk (heq ▸ hx)
  constructor
  · rw [hzip, lookupD_foldl_dset_of_not_mem _ _ _ (hmem "lat" (by decide))]
    rfl
  · rw [hzip, lookupD_foldl_dset_of_not_mem _ _ _ (hmem "lon" (by decide))]
    rfl

/-- The normalization steps of `prepRow` succeed on every row with at
least five cells. -/
theorem prepRow_ok (row : List String) (h : 5 ≤ row.length) :
    ∃ d2, prepRow row = .ok d2 := by
  rcases row with _ | ⟨a, _ | ⟨b, _ | ⟨c, _ | ⟨d, _ | ⟨e, rest⟩⟩⟩⟩⟩ <;>
    simp only [List.length_nil, List.length_cons] at h
  · omega
  · omega
  · omega
  · omega
  · omega
  · obtain ⟨hlat, hlon⟩ := lookupD_zipDict_latlon a b c d e rest
    refine ⟨dset (dset (zipDict headerRow (a :: b :: c :: d :: e :: rest)) "lat"
      (normalizeCommaDecimal d)) "lon" (normalizeCommaDecimal e), ?_⟩
    simp only [prepRow, normalizeCoordAt, hlat, bind, Except.bind]
    rw [lookupD_dset]
    simp only [if_neg (by decide : ¬ ("lon" : String) = "lat"), hlon]

/-- The header-driven dictionary build succeeds whenever the row has at
least as many cells as remain to be scanned. -/
theorem buildHeaderDictGo_ok (row : List String) (mapping : List (Option String))
    (pos : Nat) (dAcc : List (String × String))
    (h : pos + mapping.length ≤ row.length) :
    ∃ d', buildHeaderDictGo row mapping pos dAcc = .ok d' := by
  induction mapping generalizing pos dAcc with
  | nil => exact ⟨dAcc, rfl⟩
  | cons f fs ih =>
      have hpos : pos < row.length := by
        simp only [List.length_cons] at h
        omega
      have hv : row.get? pos = some (row.get ⟨pos, hpos⟩) := List.get?_eq_get hpos
      have hle : pos + 1 + fs.length ≤ row.length := by
        simp only [List.length_cons] at h
        omega
      rcases f with _ | k
      · obtain ⟨d', hd'⟩ := ih (pos + 1) dAcc hle
        exact ⟨d', by simp only [buildHeaderDictGo, hv]; exact hd'⟩
      · obtain ⟨d', hd'⟩ := ih (pos + 1) (dset dAcc k (row.get ⟨pos, hpos⟩)) hle
        exact ⟨d', by simp only [buildHeaderDictGo, hv]; exact hd'⟩

/-- Every well-sized row produces exactly one outcome: row processing
never fails when the row has at least five cells and at least one cell
per mapping position. -/
theorem processRow_ok (now : String) (mapping : List (Option String))
    (row : List String) (h5 : 5 ≤ row.length)
    (hm : mapping.length ≤ row.length) :
    ∃ out, processRow now mapping row = .ok out := by
  obtain ⟨d2, hd2⟩ := prepRow_ok row h5
  obtain ⟨bd, hbd⟩ := buildHeaderDictGo_ok row mapping 0 [] (by omega)
  rcases hv : validateRow d2 with e | rec
  · exact ⟨.inr { uid := lookupD d2 "id", message := "validation error: " ++ e },
      by simp only [processRow, hd2, buildHeaderDict, hbd, bind, Except.bind, hv]⟩
  · exact ⟨.inl (mkSite now rec),
      by simp only [processRow, hd2, buildHeaderDict, hbd, bind, Except.bind, hv]⟩

/-- The row loop partitions its input: when every row processes to an
outcome, the sums of the success and error sequence lengths equal the
number of rows. -/
theorem handleRows_count (now : String) (mapping : List (Option String))
    (rows : List (List String))
    (h : ∀ row ∈ rows, ∃ out, processRow now mapping row = .ok out) :
    ∃ ss es, handleRows now mapping rows = .ok (ss, es) ∧
      ss.length + es.length = rows.length := by
  induction rows with
  | nil => exact ⟨[], [], rfl, rfl⟩
  | cons r rs ih =>
      obtain ⟨out, hout⟩ := h r (List.mem_cons_self _ _)
      obtain ⟨ss, es, hrec, hcount⟩ :=
        ih (fun row hrow => h row (List.mem_cons_of_mem _ hrow))
      rcases out with s | e
      · refine ⟨s :: ss, es, ?_, ?_⟩
        · simp only [handleRows, hout, hrec, bind, Except.bind]
        · simp only [List.length_cons]
          omega
      · refine ⟨ss, e :: es, ?_, ?_⟩
        · simp only [handleRows, hout, hrec, bind, Except.bind]
        · simp only [List.length_cons]
          omega

end Neckarsulm

/-- C1: for every batch whose data rows are well-sized (at least five
cells, and at least one cell per header column), `handle_csv` succeeds
and every data row lands in exactly one of the two sequences — the
length of the success sequence plus the length of the error sequence
equals the number of data rows. -/
theorem C1_partition_invariant (now : String) (header : List String)
    (rows : List (List String))
    (h : ∀ row ∈ rows, 5 ≤ row.length ∧ header.length ≤ row.length) :
    ∃ res, Neckarsulm.handleCsv now (header :: rows) = .ok res ∧
      res.static_parking_site_inputs.length +
        res.static_parking_site_errors.length = rows.length := by
  have hmlen : (Neckarsulm.getMappingByHeader Neckarsulm.headerMapping header).length =
      header.length := List.length_map _ _
  have hall : ∀ row ∈ rows, ∃ out,
      Neckarsulm.processRow now
        (Neckarsulm.getMappingByHeader Neckarsulm.headerMapping header) row = .ok out := by
    intro row hrow
    exact Neckarsulm.processRow_ok now _ row (h row hrow).1
      (hmlen ▸ (h row hrow).2)
  obtain ⟨ss, es, hrec, hcount⟩ :=
    Neckarsulm.handleRows_count now _ rows hall
  exact ⟨{ static_parking_site_inputs := ss, static_parking_site_errors := es },
    by simp only [Neckarsulm.handleCsv, hrec, bind, Except.bind], hcount⟩

/-- Witness for C1: a concrete one-row batch (whose row fails
validation) satisfies the partition count 1 + 0 = 1. -/
theorem C1_witness :
    ∃ res, Neckarsulm.handleCsv "T" [["id"], ["1", "a", "b", "49", "9"]] = .ok res ∧
      res.static_parking_site_inputs.length +
        res.static_parking_site_errors.length = 1 :=
  C1_partition_invariant "T" ["id"] [["1", "a", "b", "49", "9"]] (by decide)

/-! ## Claim C2 -/

namespace Neckarsulm

/-- The German header row of the provider's table, in the translation
table's declaration order. -/
def germanHeader : List String := headerMapping.map (·.1)

/-- Row 1 of the C2 scenario: fully valid. -/
def rowC2a : List String :=
  ["1", "Marktplatz", "Parkplatz", "49,1", "9,2", "Hauptstr. 1", "74172",
   "Neckarsulm", "2h", "100", "0", "2", "3", "4", "ja", "24/7",
   "a", "b", "c", "d", "e", "f", "g", "h", "Mo-So"]

/-- Row 2 of the C2 scenario: its capacity cell `"abc"` is not numeric,
its uid cell is `"2"`. -/
def rowC2b : List String :=
  ["2", "Ballei", "Parkhaus", "49.2", "9.1", "Balleistr. 3", "74172",
   "Neckarsulm", "", "abc", "0", "0", "0", "0", "nein", "",
   "a", "b", "c", "d", "e", "f", "g", "h", ""]

/-- Row 3 of the C2 scenario: fully valid. -/
def rowC2c : List String :=
  ["3", "Tiefgarage Ost", "Tiefgarage", "49.3", "9.15", "Weg 2", "74172",
   "Neckarsulm", "", "50", "0", "0", "0", "0", "nein", "",
   "a", "b", "c", "d", "e", "f", "g", "h", ""]

end Neckarsulm

/-- C2 (code evaluated at the failing input): the three-row batch with a
non-numeric capacity in row 2 yields success length 2 and error length 1
as claimed, but the single error entry carries `none` as its uid — the
source looks up the key `'id'` in a dictionary keyed by the canonical
names, where the identifying key is `'uid'` (bound to `"2"`), so the
error never carries row 2's uid. -/
theorem C2_error_uid_is_none :
    (Neckarsulm.handleCsv "T"
        [Neckarsulm.germanHeader, Neckarsulm.rowC2a, Neckarsulm.rowC2b,
         Neckarsulm.rowC2c]).toOption.map
      (fun r => (r.static_parking_site_inputs.length,
                 r.static_parking_site_errors.length,
                 r.static_parking_site_errors.map (·.uid))) =
      some (2, 1, [none]) ∧
    lookupD (zipDict Neckarsulm.headerRow Neckarsulm.rowC2b) "id" = none ∧
    lookupD (zipDict Neckarsulm.headerRow Neckarsulm.rowC2b) "uid" = some "2" := by
  refine ⟨?_, by decide, by decide⟩
  decide

/-! ## Claim C8 -/

namespace Neckarsulm

/-- Concatenating row lists concatenates the success and error
sequences of the row loop. -/
theorem handleRows_append (now : String) (mapping : List (Option String))
    (l1 l2 : List (List String))
    (s1 s2 : List StaticParkingSiteInput) (e1 e2 : List ImportErr)
    (h1 : handleRows now mapping l1 = .ok (s1, e1))
    (h2 : handleRows now mapping l2 = .ok (s2, e2)) :
    handleRows now mapping (l1 ++ l2) = .ok (s1 ++ s2, e1 ++ e2) := by
  induction l1 generalizing s1 e1 with
  | nil =>
      simp only [handleRows, Except.ok.injEq, Prod.mk.injEq] at h1
      obtain ⟨hs, he⟩ := h1
      subst hs
      subst he
      simpa using h2
  | cons r rs ih =>
      rcases hout : processRow now mapping r with e | out
      · rw [handleRows, hout] at h1
        simp only [bind, Except.bind] at h1
        exact Except.noConfusion h1
      · rw [handleRows, hout] at h1
        simp only [bind, Except.bind] at h1
        rcases hrs : handleRows now mapping rs with e | p
        · rw [hrs] at h1
          simp only [Except.bind] at h1
          exact Except.noConfusion h1
        · obtain ⟨ss, es⟩ := p
          rw [hrs] at h1
          simp only [Except.bind] at h1
          rcases out with s | e
          · simp only [Except.ok.injEq, Prod.mk.injEq] at h1
            obtain ⟨hs, he⟩ := h1
            subst hs
            subst he
            have hgoal : handleRows now mapping (rs.append l2) =
                Except.ok (ss ++ s2, es ++ e2) := ih ss es hrs
            simp only [List.cons_append, handleRows, hout, bind, Except.bind,
              hgoal]
          · simp only [Except.ok.injEq, Prod.mk.injEq] at h1
            obtain ⟨hs, he⟩ := h1
            subst hs
            subst he
            have hgoal : handleRows now mapping (rs.append l2) =
                Except.ok (ss ++ s2, es ++ e2) := ih ss es hrs
            simp only [List.cons_append, handleRows, hout, bind, Except.bind,
              hgoal]

end Neckarsulm

/-- C8: a validated record whose raw type code is absent from
`type_mapping` still becomes a success entry with `type = none` (the
lookup yields null rather than raising), and no other record of the
batch is affected — the batch result around the row is exactly the
results of the surrounding rows with this one success entry inserted in
place. -/
theorem C8_unknown_type_code (now : String) (mapping : List (Option String))
    (row : List String) (d2 bd : List (String × String))
    (rec : Neckarsulm.RowInput) (pre post : List (List String))
    (pss qss : List Neckarsulm.StaticParkingSiteInput)
    (pes qes : List Neckarsulm.ImportErr)
    (h1 : Neckarsulm.prepRow row = .ok d2)
    (h2 : Neckarsulm.buildHeaderDict mapping row = .ok bd)
    (h3 : Neckarsulm.validateRow d2 = .ok rec)
    (h4 : lookupD Neckarsulm.typeMapping rec.type = none) :
    Neckarsulm.processRow now mapping row =
      .ok (.inl (Neckarsulm.mkSite now rec)) ∧
    (Neckarsulm.mkSite now rec).type = none ∧
    (Neckarsulm.handleRows now mapping pre = .ok (pss, pes) →
     Neckarsulm.handleRows now mapping post = .ok (qss, qes) →
     Neckarsulm.handleRows now mapping (pre ++ row :: post) =
       .ok (pss ++ Neckarsulm.mkSite now rec :: qss, pes ++ qes)) := by
  have hpr : Neckarsulm.processRow now mapping row =
      .ok (.inl (Neckarsulm.mkSite now rec)) := by
    simp only [Neckarsulm.processRow, h1, h2, h3, bind, Except.bind]
  refine ⟨hpr, ?_, ?_⟩
  · simp only [Neckarsulm.mkSite, h4]
  · intro hp hq
    have hcons : Neckarsulm.handleRows now mapping (row :: post) =
        .ok (Neckarsulm.mkSite now rec :: qss, qes) := by
      simp only [Neckarsulm.handleRows, hpr, hq, bind, Except.bind]
    exact Neckarsulm.handleRows_append now mapping pre (row :: post)
      pss _ pes _ hp hcons

namespace Neckarsulm

/-- The C8 witness row: fully valid, with the raw type code
`"Sporthalle"` absent from `type_mapping`. -/
def rowC8 : List String :=
  ["7", "Sporthalle West", "Sporthalle", "49,3", "9,15", "Weg 2", "74172",
   "Neckarsulm", "2h", "50", "0", "1", "2", "3", "nein", "Mo-Fr",
   "a", "b", "c", "d", "e", "f", "g", "h", "Mo-So"]

/-- The C8 witness row after coordinate normalization. -/
def rowC8dotted : List String :=
  ["7", "Sporthalle West", "Sporthalle", "49.3", "9.15", "Weg 2", "74172",
   "Neckarsulm", "2h", "50", "0", "1", "2", "3", "nein", "Mo-Fr",
   "a", "b", "c", "d", "e", "f", "g", "h", "Mo-So"]

/-- The validated record of the C8 witness row. -/
def recC8 : RowInput :=
  ⟨7, "Sporthalle West", "Sporthalle", ⟨493, 1⟩, ⟨915, 2⟩, "Weg 2", "74172",
   "Neckarsulm", "2h", 50, 0, 1, 2, 3, "nein", "Mo-Fr"⟩

end Neckarsulm

/-- Witness for C8: the concrete row with the unmapped type code
`"Sporthalle"` becomes a success entry with `type = none`, and a batch
of just this row yields exactly that one success entry and no errors. -/
theorem C8_witness :
    Neckarsulm.processRow "T" [] Neckarsulm.rowC8 =
      .ok (.inl (Neckarsulm.mkSite "T" Neckarsulm.recC8)) ∧
    (Neckarsulm.mkSite "T" Neckarsulm.recC8).type = none ∧
    Neckarsulm.handleRows "T" [] ([] ++ Neckarsulm.rowC8 :: []) =
      .ok ([] ++ Neckarsulm.mkSite "T" Neckarsulm.recC8 :: [], [] ++ []) := by
  have h := C8_unknown_type_code "T" []
    Neckarsulm.rowC8 (zipDict Neckarsulm.headerRow Neckarsulm.rowC8dotted) []
    Neckarsulm.recC8 [] [] [] [] [] [] rfl rfl rfl rfl
  exact ⟨h.1, h.2.1, h.2.2 rfl rfl⟩

/-! ## Claim C5 -/

namespace Neckarsulm

/-- First-some choice on options, used to state lookups through a fold. -/
def orD (a b : Option String) : Option String :=
  match a with
  | some v => some v
  | none => b

/-- One step of the header-driven dictionary build, acting on one
(actual header, cell value) pair: translate the header and insert the
value under the canonical name, or skip an untranslatable header. -/
def stepPair (table : List (String × String)) (d : List (String × String))
    (hv : String × String) : List (String × String) :=
  match lookupD table hv.1 with
  | some f => dset d f hv.2
  | none => d

/-- The header-driven dictionary of a row, phrased over the
(header, value) pairs of the row. -/
def buildFromPairs (table : List (String × String))
    (pairs : List (String × String)) : List (String × String) :=
  pairs.foldl (stepPair table) []

/-- The translated (canonical name, value) pairs of a row, in order. -/
def transPairs (table : List (String × String))
    (pairs : List (String × String)) : List (String × String) :=
  pairs.filterMap (fun hv => (lookupD table hv.1).map (fun f => (f, hv.2)))

/-- A key absent from an association list looks up to `none`. -/
theorem lookupD_eq_none_of_not_mem (l : List (String × String)) (k : String)
    (h : k ∉ l.map Prod.fst) : lookupD l k = none := by
  induction l with
  | nil => rfl
  | cons p rest ih =>
      have hk : k ≠ p.1 := fun heq =>
        h (by simp [heq])
      obtain ⟨k', v'⟩ := p
      simp only [lookupD, if_neg hk]
      exact ih (fun hm => h (List.mem_cons_of_mem _ hm))

/-- A successful lookup witnesses membership. -/
theorem mem_of_lookupD_eq_some (l : List (String × String)) (k v : String)
    (h : lookupD l k = some v) : (k, v) ∈ l := by
  induction l with
  | nil => exact Option.noConfusion h
  | cons p rest ih =>
      obtain ⟨k', v'⟩ := p
      by_cases hk : k = k'
      · subst hk
        have hh : lookupD ((k, v') :: rest) k = some v' := by simp [lookupD]
        rw [hh] at h
        injection h with h2
        subst h2
        exact List.mem_cons_self _ _
      · simp only [lookupD, if_neg hk] at h
        exact List.mem_cons_of_mem _ (ih h)

/-- Under distinct keys, membership determines the lookup. -/
theorem lookupD_eq_some_of_mem (l : List (String × String)) (k v : String)
    (hnd : (l.map Prod.fst).Nodup) (h : (k, v) ∈ l) : lookupD l k = some v := by
  induction l with
  | nil => exact absurd h (List.not_mem_nil _)
  | cons p rest ih =>
      obtain ⟨k', v'⟩ := p
      simp only [List.map_cons, List.nodup_cons] at hnd
      rcases List.mem_cons.mp h with hhead | htail
      · have hk : k = k' := congrArg Prod.fst hhead
        have hv : v = v' := congrArg Prod.snd hhead
        subst hk
        subst hv
        simp [lookupD]
      · have hk : k ≠ k' := fun heq => by
          subst heq
          exact hnd.1 (List.mem_map_of_mem Prod.fst htail)
        simp only [lookupD, if_neg hk]
        exact ih hnd.2 htail

/-- Under distinct keys, lookups are invariant under permutation. -/
theorem lookupD_perm (l₁ l₂ : List (String × String)) (hp : l₁.Perm l₂)
    (hnd : (l₁.map Prod.fst).Nodup) (k : String) :
    lookupD l₁ k = lookupD l₂ k := by
  rcases hv : lookupD l₁ k with _ | v
  · have hnm : k ∉ l₁.map Prod.fst := by
      intro hm
      obtain ⟨p, hmem, hfst⟩ := List.mem_map.mp hm
      obtain ⟨k', v'⟩ := p
      have hmem' : (k, v') ∈ l₁ := (show k' = k from hfst) ▸ hmem
      rw [lookupD_eq_some_of_mem l₁ k v' hnd hmem'] at hv
      exact Option.noConfusion hv
    have hnm₂ : k ∉ l₂.map Prod.fst := fun hm =>
      hnm ((hp.map Prod.fst).mem_iff.mpr hm)
    exact (lookupD_eq_none_of_not_mem l₂ k hnm₂).symm
  · have hmem := mem_of_lookupD_eq_some l₁ k v hv
    have hnd₂ : (l₂.map Prod.fst).Nodup := ((hp.map Prod.fst).nodup_iff).mp hnd
    exact (lookupD_eq_some_of_mem l₂ k v hnd₂ (hp.mem_iff.mp hmem)).symm

/-- Characterization of lookups through the header-driven fold: under
distinct translated keys, a lookup reads the translated pairs first and
the initial dictionary second. -/
theorem lookupD_foldl_stepPair (table : List (String × String))
    (pairs : List (String × String)) (init : List (String × String))
    (fld : String) (hnd : ((transPairs table pairs).map Prod.fst).Nodup) :
    lookupD (pairs.foldl (stepPair table) init) fld =
      orD (lookupD (transPairs table pairs) fld) (lookupD init fld) := by
  induction pairs generalizing init with
  | nil => rfl
  | cons p rest ih =>
      obtain ⟨hk, hv⟩ := p
      rcases ht : lookupD table hk with _ | f
      · have htp : transPairs table ((hk, hv) :: rest) = transPairs table rest := by
          simp [transPairs, ht]
        rw [htp] at hnd
        have hstep : stepPair table init (hk, hv) = init := by
          simp [stepPair, ht]
        rw [List.foldl_cons, hstep, ih init hnd, htp]
      · have htp : transPairs table ((hk, hv) :: rest) =
            (f, hv) :: transPairs table rest := by
          simp [transPairs, ht]
        rw [htp] at hnd
        simp only [List.map_cons, List.nodup_cons] at hnd
        have hstep : stepPair table init (hk, hv) = dset init f hv := by
          simp [stepPair, ht]
        rw [List.foldl_cons, hstep, ih _ hnd.2, htp]
        by_cases hfld : fld = f
        · subst hfld
          have hnone : lookupD (transPairs table rest) fld = none :=
            lookupD_eq_none_of_not_mem _ _ hnd.1
          rw [hnone, lookupD_dset]
          simp [orD, lookupD]
        · rw [lookupD_dset, if_neg hfld]
          simp [orD, lookupD, hfld]

/-- The position-indexed dictionary build of `handle_csv` coincides with
the fold over the (header, value) pairs whenever the row is long
enough. -/
theorem buildHeaderDictGo_eq_foldl (table : List (String × String))
    (row : List String) :
    ∀ (hdr : List String) (pos : Nat) (d : List (String × String)),
    pos + hdr.length ≤ row.length →
    buildHeaderDictGo row (hdr.map (lookupD table)) pos d =
      .ok ((hdr.zip (row.drop pos)).foldl (stepPair table) d) := by
  intro hdr
  induction hdr with
  | nil => intro pos d _; rfl
  | cons hh hs ih =>
      intro pos d hle
      have hpos : pos < row.length := by
        simp only [List.length_cons] at hle
        omega
      have hv : row.get? pos = some (row.get ⟨pos, hpos⟩) := List.get?_eq_get hpos
      have hdrop : row.drop pos = row.get ⟨pos, hpos⟩ :: row.drop (pos + 1) :=
        List.drop_eq_getElem_cons hpos
      have hrec := ih (pos + 1) (stepPair table d (hh, row.get ⟨pos, hpos⟩))
        (by simp only [List.length_cons] at hle; omega)
      rw [List.map_cons, buildHeaderDictGo, hv, hdrop, List.zip_cons_cons,
        List.foldl_cons]
      rcases ht : lookupD table hh with _ | f
      · have hstep : stepPair table d (hh, row.get ⟨pos, hpos⟩) = d := by
          simp [stepPair, ht]
        rw [hstep] at hrec ⊢
        exact hrec
      · have hstep : stepPair table d (hh, row.get ⟨pos, hpos⟩) =
            dset d f (row.get ⟨pos, hpos⟩) := by
          simp [stepPair, ht]
        rw [hstep] at hrec ⊢
        exact hrec

end Neckarsulm

/-- C5: the header-driven mapping is permutation-invariant — when one
table's (header, value) pairs are a permutation of another's (in
particular, when the header row is a permutation of the translation
table's declaration order and the data row is permuted along with it),
and the translated canonical names are distinct, both dictionary builds
of `handle_csv` succeed and assign identical values to every canonical
field. -/
theorem C5_header_permutation (table : List (String × String))
    (hdr₁ row₁ hdr₂ row₂ : List String)
    (hlen₁ : hdr₁.length = row₁.length) (hlen₂ : hdr₂.length = row₂.length)
    (hperm : (hdr₁.zip row₁).Perm (hdr₂.zip row₂))
    (hnd : ((Neckarsulm.transPairs table (hdr₁.zip row₁)).map Prod.fst).Nodup) :
    ∃ d₁ d₂,
      Neckarsulm.buildHeaderDict (Neckarsulm.getMappingByHeader table hdr₁) row₁ =
        .ok d₁ ∧
      Neckarsulm.buildHeaderDict (Neckarsulm.getMappingByHeader table hdr₂) row₂ =
        .ok d₂ ∧
      ∀ fld, lookupD d₁ fld = lookupD d₂ fld := by
  have hb₁ : Neckarsulm.buildHeaderDict (Neckarsulm.getMappingByHeader table hdr₁)
      row₁ = .ok (Neckarsulm.buildFromPairs table (hdr₁.zip row₁)) := by
    have := Neckarsulm.buildHeaderDictGo_eq_foldl table row₁ hdr₁ 0 []
      (by omega)
    simpa [Neckarsulm.buildHeaderDict, Neckarsulm.getMappingByHeader,
      Neckarsulm.buildFromPairs] using this
  have hb₂ : Neckarsulm.buildHeaderDict (Neckarsulm.getMappingByHeader table hdr₂)
      row₂ = .ok (Neckarsulm.buildFromPairs table (hdr₂.zip row₂)) := by
    have := Neckarsulm.buildHeaderDictGo_eq_foldl table row₂ hdr₂ 0 []
      (by omega)
    simpa [Neckarsulm.buildHeaderDict, Neckarsulm.getMappingByHeader,
      Neckarsulm.buildFromPairs] using this
  refine ⟨_, _, hb₁, hb₂, ?_⟩
  intro fld
  have htperm : (Neckarsulm.transPairs table (hdr₁.zip row₁)).Perm
      (Neckarsulm.transPairs table (hdr₂.zip row₂)) := hperm.filterMap _
  have hnd₂ : ((Neckarsulm.transPairs table (hdr₂.zip row₂)).map Prod.fst).Nodup :=
    ((htperm.map Prod.fst).nodup_iff).mp hnd
  rw [Neckarsulm.buildFromPairs, Neckarsulm.lookupD_foldl_stepPair table _ [] fld hnd,
    Neckarsulm.buildFromPairs, Neckarsulm.lookupD_foldl_stepPair table _ [] fld hnd₂,
    Neckarsulm.lookupD_perm _ _ htperm hnd fld]

/-- Witness for C5: a three-column table whose header swaps the first
two declared columns (with the row swapped along with it) assigns the
same value to every canonical field as the declaration-order table. -/
theorem C5_witness :
    ∃ d₁ d₂,
      Neckarsulm.buildHeaderDict
        (Neckarsulm.getMappingByHeader Neckarsulm.headerMapping
          ["name", "id", "kategorie"]) ["N", "1", "Parkhaus"] = .ok d₁ ∧
      Neckarsulm.buildHeaderDict
        (Neckarsulm.getMappingByHeader Neckarsulm.headerMapping
          ["id", "name", "kategorie"]) ["1", "N", "Parkhaus"] = .ok d₂ ∧
      ∀ fld, lookupD d₁ fld = lookupD d₂ fld :=
  C5_header_permutation Neckarsulm.headerMapping
    ["name", "id", "kategorie"] ["N", "1", "Parkhaus"]
    ["id", "name", "kategorie"] ["1", "N", "Parkhaus"]
    rfl rfl (List.Perm.swap _ _ _) (by decide)

end ParkAPI
